import Mathlib

/-!
Verification of the Inventory-App server and UI against its specification.

The server (src/server/index.js) is an Express app over Postgres with three
tables: items (the catalog), inventory_onhand (one row per item: current
quantity), inventory_events (append-only add/remove log).  The file contains
two versions of the API; the first is the current one, the second an earlier
variant with the same endpoints.  We embed both where the claims cite both.

The database is modelled as a record of three lists; SQL statements become
list operations translated clause by clause.  Timestamps are opaque strings;
the transaction clock (now()) is passed as an explicit argument.
-/

namespace Inventory

/-- A row of the items table.  ScannedCode is the unique key; Model is
required by the POST /items validation, so it is a plain String; the other
text columns are nullable.  SoldOrder models the "SoldOrder#" column. -/
structure Item where
  id : Nat
  inventoryDate : String
  scannedCode : String
  brand : Option String
  model : String
  size : Option String
  color : Option String
  notes : Option String
  soldOrder : Option String
  purchasedFrom : Option String
  paintThickness : Option Int
  price : Option Int
  qty : Option Int
  deriving DecidableEq, Repr

/-- A row of the inventory_events table ("Order Id", "Where bought from",
"Date Subtracted" are the remove-only metadata columns). -/
structure StockEvent where
  itemId : Nat
  action : String
  qty : Int
  orderId : Option String
  whereBoughtFrom : Option String
  dateSubtracted : Option String
  deriving DecidableEq, Repr

/-- The database: items catalog, on-hand ledger (item_id, on_hand), and the
event log (newest first).  nextId models the items id sequence. -/
structure DB where
  items : List Item
  onhand : List (Nat × Int)
  events : List StockEvent
  nextId : Nat
  deriving DecidableEq, Repr

def emptyDB : DB := { items := [], onhand := [], events := [], nextId := 1 }

/-- SELECT ... FROM items WHERE "ScannedCode" = code. -/
def findItem (db : DB) (code : String) : Option Item :=
  db.items.find? (fun it => it.scannedCode == code)

/-- SELECT on_hand FROM inventory_onhand WHERE item_id = id. -/
def lookupOnHand (db : DB) (id : Nat) : Option Int :=
  (db.onhand.find? (fun p => p.1 == id)).map (fun p => p.2)

/-- The effective on-hand quantity of an item (0 when no ledger row exists,
matching the COALESCE(oh.on_hand, 0) read used by the search join). -/
def onHandOf (db : DB) (id : Nat) : Int :=
  (lookupOnHand db id).getD 0

/-- helper ensureOnHandRow: INSERT INTO inventory_onhand (item_id, on_hand)
VALUES (id, 0) ON CONFLICT (item_id) DO NOTHING. -/
def ensureOnHand (db : DB) (id : Nat) : DB :=
  if (lookupOnHand db id).isSome then db
  else { db with onhand := (id, 0) :: db.onhand }

/-- UPDATE inventory_onhand SET on_hand = on_hand + d WHERE item_id = id. -/
def bumpList (l : List (Nat × Int)) (id : Nat) (d : Int) : List (Nat × Int) :=
  l.map fun p => if p.1 == id then (p.1, p.2 + d) else p

def bumpOnHand (db : DB) (id : Nat) (d : Int) : DB :=
  { db with onhand := bumpList db.onhand id d }

/-- JS truthiness test !barcode on the request body field: the guard fires
when the field is absent (undefined/null) or the empty string. -/
def barcodeMissing : Option String → Bool
  | none => true
  | some s => s == ""

/-! ## POST /inventory/add (first version, src/server/index.js 197-216) -/

inductive AddResp where
  | missingBarcode
  | itemNotFound
  | ok (event : StockEvent) (item : Item)
  deriving DecidableEq, Repr

def inventoryAdd (b : Option String) (db : DB) : AddResp × DB :=
  if barcodeMissing b then (.missingBarcode, db)
  else
    match findItem db (b.getD "") with
    | none => (.itemNotFound, db)
    | some item =>
      let db1 := ensureOnHand db item.id
      let db2 := bumpOnHand db1 item.id 1
      let ev : StockEvent :=
        { itemId := item.id, action := "add", qty := 1,
          orderId := none, whereBoughtFrom := none, dateSubtracted := none }
      (.ok ev item, { db2 with events := ev :: db2.events })

/-! ## POST /inventory/remove/initiate (first version, lines 218-238) -/

inductive InitResp where
  | missingBarcode
  | itemNotFound
  | confirmRequired (item : Item) (onHand : Int)
  | registeredZeroStock (item : Item) (onHand : Int)
  deriving DecidableEq, Repr

def removeInitiate (b : Option String) (db : DB) : InitResp × DB :=
  if barcodeMissing b then (.missingBarcode, db)
  else
    match findItem db (b.getD "") with
    | none => (.itemNotFound, db)
    | some item =>
      let db1 := ensureOnHand db item.id
      -- oh.rows[0].on_hand: the row exists after ensureOnHand, so the read
      -- is total; getD 0 is never the missing case here.
      let onHand := (lookupOnHand db1 item.id).getD 0
      (if 0 < onHand then .confirmRequired item onHand
       else .registeredZeroStock item 0, db1)

/-! ## POST /inventory/remove/confirm (first version, lines 240-274) -/

inductive ConfirmResp where
  | missingBarcode
  | itemNotFound
  | outOfStock
  | removed (onHand : Int) (event : StockEvent)
  deriving DecidableEq, Repr

def removeConfirm (b orderId whereBoughtFrom dateSubtracted : Option String)
    (now : String) (db : DB) : ConfirmResp × DB :=
  if barcodeMissing b then (.missingBarcode, db)
  else
    match findItem db (b.getD "") with
    | none => (.itemNotFound, db)
    | some item =>
      match lookupOnHand db item.id with
      | none => (.outOfStock, db)        -- !oh.rows.length branch: ROLLBACK
      | some q =>
        if q ≤ 0 then (.outOfStock, db)  -- on_hand <= 0 branch: ROLLBACK
        else
          let db1 := bumpOnHand db item.id (-1)
          let ev : StockEvent :=
            { itemId := item.id, action := "remove", qty := 1,
              orderId := orderId, whereBoughtFrom := whereBoughtFrom,
              -- COALESCE($4::timestamptz, now())
              dateSubtracted := some (dateSubtracted.getD now) }
          (.removed (q - 1) ev, { db1 with events := ev :: db1.events })

/-! ## POST /inventory/remove/confirm (second version, lines 594-635).
On a missing ledger row this version creates the zero row and COMMITs
before reporting OUT_OF_STOCK; its success response also carries the item.
Its item lookup reads the older schema (SELECT id, name FROM items WHERE
barcode = ...); both schemas key the lookup on the unique scanned code,
which findItem models. -/

inductive ConfirmV2Resp where
  | missingBarcode
  | itemNotFound
  | outOfStock
  | removed (item : Item) (onHand : Int) (event : StockEvent)
  deriving DecidableEq, Repr

def removeConfirmV2 (b orderId whereBoughtFrom dateSubtracted : Option String)
    (now : String) (db : DB) : ConfirmV2Resp × DB :=
  if barcodeMissing b then (.missingBarcode, db)
  else
    match findItem db (b.getD "") with
    | none => (.itemNotFound, db)
    | some item =>
      match lookupOnHand db item.id with
      | none => (.outOfStock, ensureOnHand db item.id)  -- create zero row, COMMIT
      | some q =>
        if q ≤ 0 then (.outOfStock, db)                 -- ROLLBACK
        else
          let db1 := bumpOnHand db item.id (-1)
          let ev : StockEvent :=
            { itemId := item.id, action := "remove", qty := 1,
              orderId := orderId, whereBoughtFrom := whereBoughtFrom,
              dateSubtracted := some (dateSubtracted.getD now) }
          (.removed item (q - 1) ev, { db1 with events := ev :: db1.events })

/-! ## POST /items (lines 144-194): upsert by ScannedCode. -/

structure ItemBody where
  inventoryDate : Option String
  scannedCode : Option String
  brand : Option String
  model : Option String
  size : Option String
  color : Option String
  notes : Option String
  soldOrder : Option String
  purchasedFrom : Option String
  paintThickness : Option Int
  price : Option Int
  qty : Option Int
  deriving DecidableEq, Repr

inductive PostResp where
  | missingFields
  | created (item : Item)
  deriving DecidableEq, Repr

/-- POST /items.  The JS layer substitutes new Date().toISOString() for an
absent InventoryDate before binding the SQL parameter, so the value handed
to the INSERT (and visible to the ON CONFLICT update as EXCLUDED) is always
non-null; sentDate records that binding.  The conflict branch then sets
InventoryDate to COALESCE(EXCLUDED."InventoryDate", items."InventoryDate")
and every other mutable column to its EXCLUDED value. -/
def postItems (body : ItemBody) (now : String) (db : DB) : PostResp × DB :=
  if body.scannedCode.getD "" == "" || body.model.getD "" == "" then
    (.missingFields, db)
  else
    let code := body.scannedCode.getD ""
    let sentDate : Option String := some (body.inventoryDate.getD now)
    match findItem db code with
    | none =>
      let item : Item :=
        { id := db.nextId, inventoryDate := sentDate.getD now,
          scannedCode := code, brand := body.brand, model := body.model.getD "",
          size := body.size, color := body.color, notes := body.notes,
          soldOrder := body.soldOrder, purchasedFrom := body.purchasedFrom,
          paintThickness := body.paintThickness, price := body.price,
          qty := body.qty }
      let db1 := { db with items := db.items ++ [item], nextId := db.nextId + 1 }
      (.created item, ensureOnHand db1 item.id)
    | some old =>
      let item : Item :=
        { id := old.id, inventoryDate := sentDate.getD old.inventoryDate,
          scannedCode := old.scannedCode, brand := body.brand,
          model := body.model.getD "", size := body.size, color := body.color,
          notes := body.notes, soldOrder := body.soldOrder,
          purchasedFrom := body.purchasedFrom,
          paintThickness := body.paintThickness, price := body.price,
          qty := body.qty }
      let db1 :=
        { db with items := db.items.map fun it =>
            if it.scannedCode == code then item else it }
      (.created item, ensureOnHand db1 item.id)

/-! ## GET /items/search and GET /items/distinct (lines 30-132).

The free-text condition builds the ILIKE pattern
qPattern = the percent sign, then qRaw.replace([percent or underscore]
with a backslash and the match, JS regex replace), then the percent sign,
and ORs it over twelve columns.  We model Postgres LIKE patterns by lexing
the pattern (backslash is the escape character) into tokens and matching;
ILIKE lowers both sides of every literal comparison. -/

inductive LTok where
  | lit (c : Char)
  | anyOne
  | anySeq
  deriving DecidableEq, Repr

/-- Lex a LIKE pattern: a backslash escapes the next character; an
unescaped percent sign matches any sequence, an unescaped underscore any
single character.  (Postgres raises an error on a pattern ending in a bare
escape character; the patterns this server builds always end in an
unescaped percent sign, so that case is unreachable and lexes to nothing.) -/
def lexLike : List Char → List LTok
  | [] => []
  | '\\' :: [] => []
  | '\\' :: d :: rest => .lit d :: lexLike rest
  | '%' :: rest => .anySeq :: lexLike rest
  | '_' :: rest => .anyOne :: lexLike rest
  | c :: rest => .lit c :: lexLike rest

/-- LIKE matching with case-insensitive literal comparison (ILIKE). -/
def likeMatch : List LTok → List Char → Bool
  | [], s => s.isEmpty
  | .lit c :: ps, s =>
    match s with
    | [] => false
    | d :: ds => (c.toLower == d.toLower) && likeMatch ps ds
  | .anyOne :: ps, s =>
    match s with
    | [] => false
    | _ :: ds => likeMatch ps ds
  | .anySeq :: ps, s => s.tails.any fun s' => likeMatch ps s'

def ilike (p t : List Char) : Bool := likeMatch (lexLike p) t

/-- qRaw.replace(the regex class of percent and underscore, global, with a
backslash followed by the match): each percent or underscore is prefixed
with a backslash; every other character (a backslash included) is kept
as is. -/
def escapeLikeChar (c : Char) : List Char :=
  if c = '%' ∨ c = '_' then ['\\', c] else [c]

def escapeLike (s : List Char) : List Char := s.flatMap escapeLikeChar

/-- The full pattern: a percent sign, the escaped text, a percent sign. -/
def qPatternOf (q : List Char) : List Char := '%' :: (escapeLike q ++ ['%'])

/-- Case-insensitive-substring reference predicate: hasSub n h is true when
the needle n occurs contiguously inside h (both already lowered by the
caller).  This is the specification-level notion of substring match. -/
def startsWithL : List Char → List Char → Bool
  | [], _ => true
  | _ :: _, [] => false
  | c :: cs, d :: ds => (c == d) && startsWithL cs ds

def hasSub (needle : List Char) : List Char → Bool
  | [] => needle.isEmpty
  | d :: ds => startsWithL needle (d :: ds) || hasSub needle ds

/-- The allow-listed filterable fields (FIELD_MAP keys). -/
inductive Field where
  | brand | model | size | color | purchasedfrom | scannedcode | notes | soldorder
  deriving DecidableEq, Repr

def FIELD_MAP : List (String × Field) :=
  [("brand", .brand), ("model", .model), ("size", .size), ("color", .color),
   ("purchasedfrom", .purchasedfrom), ("scannedcode", .scannedcode),
   ("notes", .notes), ("soldorder", .soldorder)]

def fieldVal (it : Item) : Field → Option String
  | .brand => it.brand
  | .model => some it.model
  | .size => it.size
  | .color => it.color
  | .purchasedfrom => it.purchasedFrom
  | .scannedcode => some it.scannedCode
  | .notes => it.notes
  | .soldorder => it.soldOrder

inductive ApiErr where
  | invalidField
  | serverError
  deriving DecidableEq, Repr

/-- Model of String.prototype.toLowerCase / SQL lower: lower every
character. -/
def lowerStr (s : String) : String := ⟨s.data.map Char.toLower⟩

def isWS (c : Char) : Bool := c == ' ' || c == '\t' || c == '\n' || c == '\r'

/-- Model of String.prototype.trim / SQL btrim: drop leading and trailing
whitespace. -/
def trimStr (s : String) : String :=
  ⟨((s.data.dropWhile isWS).reverse.dropWhile isWS).reverse⟩

/-- Model of s.split(','): split on commas, keeping empty parts (an empty
string splits to one empty part, as in JS). -/
def splitCommaAux : List Char → List Char → List (List Char)
  | [], cur => [cur.reverse]
  | c :: rest, cur =>
    if c = ',' then cur.reverse :: splitCommaAux rest []
    else splitCommaAux rest (c :: cur)

def splitComma (s : String) : List String :=
  (splitCommaAux s.data []).map fun l => ⟨l⟩

/-- parseList k: split the query parameter on commas, trim each part, drop
empties.  (We model each query parameter as a single string; the Array.isArray
branch of the JS rejoins an array with commas, which is the same list.) -/
def parseList (query : List (String × String)) (k : String) : List String :=
  match query.lookup k with
  | none => []
  | some s => ((splitComma s).map trimStr).filter fun x => x ≠ ""

/-- The free-text pattern of a request: q trimmed; empty means no text
condition (qPattern null). -/
def qPatternOpt (query : List (String × String)) : Option (List Char) :=
  let qRaw := trimStr ((query.lookup "q").getD "")
  if qRaw = "" then none else some (qPatternOf qRaw.data)

/-- The per-field filter lists of a request: only the FIELD_MAP keys are
ever consulted; any other query parameter is never read. -/
def filtersOf (query : List (String × String)) : List (Field × List String) :=
  FIELD_MAP.map fun kf => (kf.2, parseList query kf.1)

/-- The twelve columns the free-text ILIKE is OR-ed over (a NULL column
never matches: NULL ILIKE p is not true). -/
def textColumns (it : Item) : List String :=
  [some it.scannedCode, it.brand, some it.model, it.size, it.color, it.notes,
   it.soldOrder, it.purchasedFrom,
   it.paintThickness.map toString, it.price.map toString, it.qty.map toString,
   some it.inventoryDate].filterMap id

/-- The WHERE clause of the search: free-text condition AND, per field with
a non-empty value list, LOWER(col) = ANY(values lowered); a NULL column
fails the filter. -/
def rowMatches (pat : Option (List Char)) (filters : List (Field × List String))
    (it : Item) : Bool :=
  (match pat with
   | none => true
   | some p => (textColumns it).any fun t => ilike p t.data) &&
  filters.all fun fv =>
    fv.2.isEmpty ||
      match fieldVal it fv.1 with
      | none => false
      | some s => (fv.2.map lowerStr).contains (lowerStr s)

/-- Insertion sort: the model of ORDER BY (ties keep input order). -/
def insertSorted (le : α → α → Bool) (a : α) : List α → List α
  | [] => [a]
  | b :: bs => if le a b then a :: b :: bs else b :: insertSorted le a bs

def insertionSort (le : α → α → Bool) : List α → List α
  | [] => []
  | a :: as => insertSorted le a (insertionSort le as)

/-- ORDER BY i."Brand" NULLS LAST, i."Model" NULLS LAST, i."ScannedCode".
(Model is non-null in this embedding, so its NULLS LAST is vacuous.) -/
def itemOrd (x y : Item) : Ordering :=
  (match x.brand, y.brand with
   | some a, some b => compare a b
   | some _, none => .lt
   | none, some _ => .gt
   | none, none => .eq).then
    ((compare x.model y.model).then (compare x.scannedCode y.scannedCode))

def itemLe (x y : Item) : Bool :=
  match itemOrd x y with
  | .gt => false
  | _ => true

structure SearchRow where
  item : Item
  onHand : Int
  deriving DecidableEq, Repr

/-- The SELECT of /items/search: filter, left-join the ledger
(COALESCE(oh.on_hand, 0)), order, LIMIT 200. -/
def searchRows (pat : Option (List Char)) (filters : List (Field × List String))
    (db : DB) : List SearchRow :=
  let hits := db.items.filter fun it => rowMatches pat filters it
  let sorted := insertionSort itemLe hits
  (sorted.map fun it => { item := it, onHand := onHandOf db it.id }).take 200

/-- GET /items/search.  The handler never validates field names: it reads
only q and the eight FIELD_MAP parameters, so it cannot return the
INVALID_FIELD error (the error type is shared with /items/distinct). -/
def searchRoute (query : List (String × String)) (db : DB) :
    Except ApiErr (List SearchRow) :=
  .ok (searchRows (qPatternOpt query) (filtersOf query) db)

def strLeCI (a b : String) : Bool :=
  match compare (lowerStr a) (lowerStr b) with
  | .gt => false
  | _ => true

/-- GET /items/distinct: 400 INVALID_FIELD unless the field (lowered) is a
FIELD_MAP key; otherwise the non-null, non-blank values of that column with
their counts, ordered by lower(col). -/
def itemsDistinct (fieldParam : String) (db : DB) :
    Except ApiErr (List (String × Nat)) :=
  match FIELD_MAP.lookup (lowerStr fieldParam) with
  | none => .error .invalidField
  | some f =>
    let vals := (db.items.filterMap fun it => fieldVal it f).filter
      fun s => trimStr s ≠ ""
    let rows := vals.eraseDups.map fun v => (v, vals.count v)
    .ok (insertionSort (fun a b => strLeCI a.1 b.1) rows)

/-! ## Scan Session UI: the remove-confirmation sub-state.

src/web/src/ui/App.tsx and src/unnamed/part_001 both render a
ConfirmRemoveModal whose Yes button builds a metadata payload (empty inputs
become null, a non-empty date is converted with new Date(s).toISOString())
and whose No button only calls onCancel, which clears the pending removal
without any fetch.  The two versions differ in the App-side onConfirm
handler that receives the payload. -/

structure ConfirmMeta where
  orderId : Option String
  whereBoughtFrom : Option String
  dateSubtracted : Option String
  deriving DecidableEq, Repr

structure ConfirmRequest where
  barcode : String
  orderId : Option String
  whereBoughtFrom : Option String
  dateSubtracted : Option String
  deriving DecidableEq, Repr

/-- The payload the modal passes to onConfirm; iso models
new Date(s).toISOString(). -/
def modalConfirmPayload (iso : String → String)
    (orderId whereBought dateSub : String) : ConfirmMeta :=
  { orderId := if orderId = "" then none else some orderId,
    whereBoughtFrom := if whereBought = "" then none else some whereBought,
    dateSubtracted := if dateSub = "" then none else some (iso dateSub) }

/-- src/web/src/ui/App.tsx (lines 309-328) onConfirm handler: the fetch body
is JSON with only the barcode; the handler takes no parameter, so the modal
payload is dropped. -/
def appConfirmBody (item : Item) (_extra : ConfirmMeta) : ConfirmRequest :=
  { barcode := item.scannedCode, orderId := none, whereBoughtFrom := none,
    dateSubtracted := none }

/-- src/unnamed/part_001 (lines 391-399) onConfirm handler: the fetch body
spreads the modal payload next to the barcode. -/
def appConfirmBodyV2 (item : Item) (extra : ConfirmMeta) : ConfirmRequest :=
  { barcode := item.scannedCode, orderId := extra.orderId,
    whereBoughtFrom := extra.whereBoughtFrom,
    dateSubtracted := extra.dateSubtracted }

inductive Answer where
  | yes (orderId whereBought dateSub : String)
  | no
  deriving DecidableEq, Repr

/-- Outcome of the confirmation sub-state: none means no request is sent. -/
def confirmOutcome (item : Item) (iso : String → String) :
    Answer → Option ConfirmRequest
  | .no => none
  | .yes o w d => some (appConfirmBody item (modalConfirmPayload iso o w d))

def confirmOutcomeV2 (item : Item) (iso : String → String) :
    Answer → Option ConfirmRequest
  | .no => none
  | .yes o w d => some (appConfirmBodyV2 item (modalConfirmPayload iso o w d))

/-! ## Operation sequences over the database -/

inductive Op where
  | add (barcode : Option String)
  | initiate (barcode : Option String)
  | confirm (barcode orderId whereBoughtFrom dateSubtracted : Option String)
      (now : String)
  | confirmV2 (barcode orderId whereBoughtFrom dateSubtracted : Option String)
      (now : String)
  | postItem (body : ItemBody) (now : String)
  deriving DecidableEq

def applyOp : Op → DB → DB
  | .add b, db => (inventoryAdd b db).2
  | .initiate b, db => (removeInitiate b db).2
  | .confirm b o w d now, db => (removeConfirm b o w d now db).2
  | .confirmV2 b o w d now, db => (removeConfirmV2 b o w d now db).2
  | .postItem body now, db => (postItems body now db).2

def applyOps : List Op → DB → DB
  | [], db => db
  | op :: ops, db => applyOps ops (applyOp op db)

/-- Number of add events in the log for one item. -/
def addEvents (db : DB) (id : Nat) : Nat :=
  db.events.countP fun e => e.itemId == id && e.action == "add"

/-- Number of remove events in the log for one item. -/
def removeEvents (db : DB) (id : Nat) : Nat :=
  db.events.countP fun e => e.itemId == id && e.action == "remove"

/-- A sequential user-level run on one barcode: AddOne and ConfirmRemove
calls (metadata left absent, a fixed transaction clock). -/
inductive UserOp where
  | addU
  | confirmU
  deriving DecidableEq

def countAdds (ops : List UserOp) : Nat :=
  ops.countP fun o => match o with | .addU => true | .confirmU => false

def countConfirms (ops : List UserOp) : Nat :=
  ops.countP fun o => match o with | .addU => false | .confirmU => true

/-- Run the ops in order; none when any call does not succeed. -/
def runOk : List UserOp → String → DB → Option DB
  | [], _, db => some db
  | .addU :: rest, bc, db =>
    match inventoryAdd (some bc) db with
    | (.ok _ _, db1) => runOk rest bc db1
    | _ => none
  | .confirmU :: rest, bc, db =>
    match removeConfirm (some bc) none none none "" db with
    | (.removed _ _, db1) => runOk rest bc db1
    | _ => none

/-! ## Ledger lemmas -/

theorem bumpList_cons_hit (p : Nat × Int) (l : List (Nat × Int)) (id : Nat)
    (d : Int) (hp : (p.1 == id) = true) :
    bumpList (p :: l) id d = (p.1, p.2 + d) :: bumpList l id d := by
  have hpi : p.1 = id := by simpa using hp
  simp [bumpList, hpi]

theorem bumpList_cons_skip (p : Nat × Int) (l : List (Nat × Int)) (id : Nat)
    (d : Int) (hp : (p.1 == id) = false) :
    bumpList (p :: l) id d = p :: bumpList l id d := by
  have hpi : p.1 ≠ id := by simpa using hp
  simp [bumpList, hpi]

theorem find?_bumpList_self (l : List (Nat × Int)) (id : Nat) (d : Int) :
    (bumpList l id d).find? (fun p => p.1 == id) =
      (l.find? (fun p => p.1 == id)).map (fun p => (p.1, p.2 + d)) := by
  induction l with
  | nil => rfl
  | cons p l ih =>
    cases hp : (p.1 == id) with
    | true =>
      rw [bumpList_cons_hit p l id d hp, List.find?_cons, List.find?_cons]
      simp [hp]
    | false =>
      rw [bumpList_cons_skip p l id d hp, List.find?_cons, List.find?_cons]
      simp [hp, ih]

theorem find?_bumpList_other (l : List (Nat × Int)) (id j : Nat) (d : Int)
    (h : j ≠ id) :
    (bumpList l id d).find? (fun p => p.1 == j) = l.find? (fun p => p.1 == j) := by
  induction l with
  | nil => rfl
  | cons p l ih =>
    cases hp : (p.1 == id) with
    | true =>
      have hpi : p.1 = id := by simpa using hp
      have hpj : (p.1 == j) = false := beq_false_of_ne (by rw [hpi]; exact Ne.symm h)
      rw [bumpList_cons_hit p l id d hp, List.find?_cons, List.find?_cons]
      simp [hpj, ih]
    | false =>
      rw [bumpList_cons_skip p l id d hp, List.find?_cons, List.find?_cons]
      cases hj : (p.1 == j) with
      | true => simp [hj]
      | false => simp [hj, ih]

theorem lookupOnHand_bump_self (db : DB) (id : Nat) (d : Int) :
    lookupOnHand (bumpOnHand db id d) id =
      (lookupOnHand db id).map (fun q => q + d) := by
  simp only [lookupOnHand, bumpOnHand]
  rw [find?_bumpList_self]
  cases db.onhand.find? (fun p => p.1 == id) <;> rfl

theorem lookupOnHand_bump_other (db : DB) (id j : Nat) (d : Int) (h : j ≠ id) :
    lookupOnHand (bumpOnHand db id d) j = lookupOnHand db j := by
  simp only [lookupOnHand, bumpOnHand]
  rw [find?_bumpList_other _ _ _ _ h]

theorem lookupOnHand_ensure_self (db : DB) (id : Nat) :
    lookupOnHand (ensureOnHand db id) id = some (onHandOf db id) := by
  unfold ensureOnHand onHandOf
  cases h : lookupOnHand db id with
  | some q => simp [h]
  | none =>
    simp only [h, Option.isSome_none, Bool.false_eq_true, if_false]
    simp [lookupOnHand, List.find?_cons]

theorem lookupOnHand_ensure_other (db : DB) (id j : Nat) (h : j ≠ id) :
    lookupOnHand (ensureOnHand db id) j = lookupOnHand db j := by
  unfold ensureOnHand
  cases hq : (lookupOnHand db id).isSome with
  | true => simp
  | false =>
    simp only [hq, Bool.false_eq_true, if_false]
    show ((((id, 0) : Nat × Int) :: db.onhand).find? (fun p => p.1 == j)).map _ = _
    rw [List.find?_cons]
    simp [beq_false_of_ne (Ne.symm h), lookupOnHand]

theorem onHandOf_ensure (db : DB) (id j : Nat) :
    onHandOf (ensureOnHand db id) j = onHandOf db j := by
  by_cases h : j = id
  · subst h; rw [onHandOf, lookupOnHand_ensure_self]; rfl
  · rw [onHandOf, lookupOnHand_ensure_other db id j h, onHandOf]

theorem ensure_items (db : DB) (id : Nat) : (ensureOnHand db id).items = db.items := by
  unfold ensureOnHand; split <;> rfl

theorem ensure_events (db : DB) (id : Nat) :
    (ensureOnHand db id).events = db.events := by
  unfold ensureOnHand; split <;> rfl

theorem ensure_nextId (db : DB) (id : Nat) :
    (ensureOnHand db id).nextId = db.nextId := by
  unfold ensureOnHand; split <;> rfl

theorem onHandOf_addStep (db : DB) (id : Nat) :
    onHandOf (bumpOnHand (ensureOnHand db id) id 1) id = onHandOf db id + 1 := by
  rw [onHandOf, lookupOnHand_bump_self, lookupOnHand_ensure_self]; rfl

theorem onHandOf_addStep_other (db : DB) (id j : Nat) (h : j ≠ id) :
    onHandOf (bumpOnHand (ensureOnHand db id) id 1) j = onHandOf db j := by
  rw [onHandOf, lookupOnHand_bump_other _ _ _ _ h, lookupOnHand_ensure_other _ _ _ h,
    onHandOf]

theorem onHandOf_decStep (db : DB) (id : Nat) (q : Int)
    (hq : lookupOnHand db id = some q) :
    onHandOf (bumpOnHand db id (-1)) id = q - 1 := by
  rw [onHandOf, lookupOnHand_bump_self, hq]
  show q + (-1) = q - 1
  ring

theorem onHandOf_decStep_other (db : DB) (id j : Nat) (h : j ≠ id) :
    onHandOf (bumpOnHand db id (-1)) j = onHandOf db j := by
  rw [onHandOf, lookupOnHand_bump_other _ _ _ _ h, onHandOf]

/-! ## Route characterization lemmas -/

theorem barcodeMissing_some_ne (bc : String) (hbc : bc ≠ "") :
    barcodeMissing (some bc) = false := by
  simp [barcodeMissing, hbc]

theorem findItem_congr (db1 db : DB) (bc : String) (h : db1.items = db.items) :
    findItem db1 bc = findItem db bc := by
  unfold findItem; rw [h]

theorem onHandOf_set_events (db : DB) (e : List StockEvent) (j : Nat) :
    onHandOf { db with events := e } j = onHandOf db j := rfl

/-- The add event row produced by POST /inventory/add. -/
def addEv (id : Nat) : StockEvent :=
  { itemId := id, action := "add", qty := 1, orderId := none,
    whereBoughtFrom := none, dateSubtracted := none }

/-- The database produced by a successful POST /inventory/add. -/
def dbAfterAdd (db : DB) (id : Nat) : DB :=
  let db2 := bumpOnHand (ensureOnHand db id) id 1
  { db2 with events := addEv id :: db2.events }

theorem inventoryAdd_found (db : DB) (bc : String) (item : Item)
    (hbc : bc ≠ "") (hit : findItem db bc = some item) :
    inventoryAdd (some bc) db = (.ok (addEv item.id) item, dbAfterAdd db item.id) := by
  have hm := barcodeMissing_some_ne bc hbc
  unfold inventoryAdd dbAfterAdd addEv
  rw [hm]
  simp only [Bool.false_eq_true, if_false, Option.getD_some, hit]

theorem dbAfterAdd_items (db : DB) (id : Nat) : (dbAfterAdd db id).items = db.items := by
  show (bumpOnHand (ensureOnHand db id) id 1).items = db.items
  rw [show (bumpOnHand (ensureOnHand db id) id 1).items =
      (ensureOnHand db id).items from rfl, ensure_items]

theorem dbAfterAdd_events (db : DB) (id : Nat) :
    (dbAfterAdd db id).events = addEv id :: db.events := by
  show addEv id :: (bumpOnHand (ensureOnHand db id) id 1).events = _
  rw [show (bumpOnHand (ensureOnHand db id) id 1).events =
      (ensureOnHand db id).events from rfl, ensure_events]

theorem dbAfterAdd_onHand (db : DB) (id : Nat) :
    onHandOf (dbAfterAdd db id) id = onHandOf db id + 1 := by
  show onHandOf { bumpOnHand (ensureOnHand db id) id 1 with
    events := addEv id :: (bumpOnHand (ensureOnHand db id) id 1).events } id = _
  rw [onHandOf_set_events, onHandOf_addStep]

theorem dbAfterAdd_onHand_other (db : DB) (id j : Nat) (hj : j ≠ id) :
    onHandOf (dbAfterAdd db id) j = onHandOf db j := by
  show onHandOf { bumpOnHand (ensureOnHand db id) id 1 with
    events := addEv id :: (bumpOnHand (ensureOnHand db id) id 1).events } j = _
  rw [onHandOf_set_events, onHandOf_addStep_other db id j hj]

theorem removeInitiate_found (db : DB) (bc : String) (item : Item)
    (hbc : bc ≠ "") (hit : findItem db bc = some item) :
    removeInitiate (some bc) db =
      (if 0 < onHandOf db item.id then
        .confirmRequired item (onHandOf db item.id)
       else .registeredZeroStock item 0,
       ensureOnHand db item.id) := by
  have hm := barcodeMissing_some_ne bc hbc
  unfold removeInitiate
  rw [hm]
  simp only [Bool.false_eq_true, if_false, Option.getD_some, hit,
    lookupOnHand_ensure_self, Option.getD_some]

/-- The remove event row produced by POST /inventory/remove/confirm. -/
def remEv (id : Nat) (o w : Option String) (dd : String) : StockEvent :=
  { itemId := id, action := "remove", qty := 1, orderId := o,
    whereBoughtFrom := w, dateSubtracted := some dd }

/-- The database produced by a successful POST /inventory/remove/confirm. -/
def dbAfterRemove (db : DB) (id : Nat) (o w : Option String) (dd : String) : DB :=
  let db1 := bumpOnHand db id (-1)
  { db1 with events := remEv id o w dd :: db1.events }

theorem removeConfirm_removed (db : DB) (bc : String) (item : Item)
    (o w d : Option String) (now : String) (q : Int)
    (hbc : bc ≠ "") (hit : findItem db bc = some item)
    (hq : lookupOnHand db item.id = some q) (h0 : 0 < q) :
    removeConfirm (some bc) o w d now db =
      (.removed (q - 1) (remEv item.id o w (d.getD now)),
       dbAfterRemove db item.id o w (d.getD now)) := by
  have hm := barcodeMissing_some_ne bc hbc
  have hq0 : ¬ q ≤ 0 := by omega
  unfold removeConfirm dbAfterRemove remEv
  rw [hm]
  simp only [Bool.false_eq_true, if_false, Option.getD_some, hit, hq, hq0]

theorem dbAfterRemove_items (db : DB) (id : Nat) (o w : Option String)
    (dd : String) : (dbAfterRemove db id o w dd).items = db.items := rfl

theorem dbAfterRemove_events (db : DB) (id : Nat) (o w : Option String)
    (dd : String) :
    (dbAfterRemove db id o w dd).events = remEv id o w dd :: db.events := rfl

theorem dbAfterRemove_onHand (db : DB) (id : Nat) (o w : Option String)
    (dd : String) (q : Int) (hq : lookupOnHand db id = some q) :
    onHandOf (dbAfterRemove db id o w dd) id = q - 1 := by
  show onHandOf { bumpOnHand db id (-1) with
    events := remEv id o w dd :: (bumpOnHand db id (-1)).events } id = _
  rw [onHandOf_set_events, onHandOf_decStep db id q hq]

theorem dbAfterRemove_onHand_other (db : DB) (id j : Nat) (o w : Option String)
    (dd : String) (hj : j ≠ id) :
    onHandOf (dbAfterRemove db id o w dd) j = onHandOf db j := by
  show onHandOf { bumpOnHand db id (-1) with
    events := remEv id o w dd :: (bumpOnHand db id (-1)).events } j = _
  rw [onHandOf_set_events, onHandOf_decStep_other db id j hj]

/-! ## Non-negativity of the ledger -/

/-- Every quantity in the ledger is non-negative. -/
def NonNeg (db : DB) : Prop := ∀ i, 0 ≤ onHandOf db i

theorem nonNeg_ensure (db : DB) (id : Nat) (h : NonNeg db) :
    NonNeg (ensureOnHand db id) := by
  intro i; rw [onHandOf_ensure]; exact h i

theorem nonNeg_dbAfterAdd (db : DB) (id : Nat) (h : NonNeg db) :
    NonNeg (dbAfterAdd db id) := by
  intro i
  by_cases hi : i = id
  · subst hi; rw [dbAfterAdd_onHand]; have := h i; omega
  · rw [dbAfterAdd_onHand_other db id i hi]; exact h i

theorem nonNeg_dbAfterRemove (db : DB) (id : Nat) (o w : Option String)
    (dd : String) (q : Int) (hq : lookupOnHand db id = some q) (h0 : 0 < q)
    (h : NonNeg db) : NonNeg (dbAfterRemove db id o w dd) := by
  intro i
  by_cases hi : i = id
  · subst hi; rw [dbAfterRemove_onHand db i o w dd q hq]; omega
  · rw [dbAfterRemove_onHand_other db id i o w dd hi]; exact h i

theorem onHandOf_set_items (db : DB) (l : List Item) (n : Nat) (j : Nat) :
    onHandOf { db with items := l, nextId := n } j = onHandOf db j := rfl

theorem nonNeg_applyOp (op : Op) (db : DB) (h : NonNeg db) :
    NonNeg (applyOp op db) := by
  cases op with
  | add b =>
    show NonNeg (inventoryAdd b db).2
    unfold inventoryAdd
    cases hm : barcodeMissing b with
    | true => simpa using h
    | false =>
      simp only [Bool.false_eq_true, if_false]
      cases hf : findItem db (b.getD "") with
      | none => simpa using h
      | some item =>
        simp only []
        exact nonNeg_dbAfterAdd db item.id h
  | initiate b =>
    show NonNeg (removeInitiate b db).2
    unfold removeInitiate
    cases hm : barcodeMissing b with
    | true => simpa using h
    | false =>
      simp only [Bool.false_eq_true, if_false]
      cases hf : findItem db (b.getD "") with
      | none => simpa using h
      | some item =>
        simp only []
        exact nonNeg_ensure db item.id h
  | confirm b o w d now =>
    show NonNeg (removeConfirm b o w d now db).2
    unfold removeConfirm
    cases hm : barcodeMissing b with
    | true => simpa using h
    | false =>
      simp only [Bool.false_eq_true, if_false]
      cases hf : findItem db (b.getD "") with
      | none => simpa using h
      | some item =>
        simp only []
        cases hq : lookupOnHand db item.id with
        | none => simpa using h
        | some q =>
          simp only []
          by_cases h0 : q ≤ 0
          · simpa [h0] using h
          · simp only [h0, if_false]
            exact nonNeg_dbAfterRemove db item.id o w (d.getD now) q hq
              (by omega) h
  | confirmV2 b o w d now =>
    show NonNeg (removeConfirmV2 b o w d now db).2
    unfold removeConfirmV2
    cases hm : barcodeMissing b with
    | true => simpa using h
    | false =>
      simp only [Bool.false_eq_true, if_false]
      cases hf : findItem db (b.getD "") with
      | none => simpa using h
      | some item =>
        simp only []
        cases hq : lookupOnHand db item.id with
        | none => simpa using nonNeg_ensure db item.id h
        | some q =>
          simp only []
          by_cases h0 : q ≤ 0
          · simpa [h0] using h
          · simp only [h0, if_false]
            exact nonNeg_dbAfterRemove db item.id o w (d.getD now) q hq
              (by omega) h
  | postItem body now =>
    show NonNeg (postItems body now db).2
    unfold postItems
    cases hm : (body.scannedCode.getD "" == "" || body.model.getD "" == "") with
    | true => simpa using h
    | false =>
      simp only [Bool.false_eq_true, if_false]
      cases hf : findItem db (body.scannedCode.getD "") with
      | none =>
        simp only []
        refine nonNeg_ensure _ _ (fun i => ?_)
        show 0 ≤ onHandOf { db with items := _, nextId := _ } i
        rw [onHandOf_set_items]
        exact h i
      | some old =>
        simp only []
        refine nonNeg_ensure _ _ (fun i => ?_)
        show 0 ≤ onHandOf { db with items := _ } i
        exact h i

theorem nonNeg_applyOps (ops : List Op) (db : DB) (h : NonNeg db) :
    NonNeg (applyOps ops db) := by
  induction ops generalizing db with
  | nil => exact h
  | cons op ops ih => exact ih (applyOp op db) (nonNeg_applyOp op db h)

/-! ## Event counting and the sequential run -/

theorem addEvents_dbAfterAdd (db : DB) (id : Nat) :
    addEvents (dbAfterAdd db id) id = addEvents db id + 1 := by
  unfold addEvents
  rw [dbAfterAdd_events, List.countP_cons]
  simp [addEv]

theorem removeEvents_dbAfterAdd (db : DB) (id : Nat) :
    removeEvents (dbAfterAdd db id) id = removeEvents db id := by
  unfold removeEvents
  rw [dbAfterAdd_events, List.countP_cons]
  simp [addEv]

theorem addEvents_dbAfterRemove (db : DB) (id : Nat) (o w : Option String)
    (dd : String) : addEvents (dbAfterRemove db id o w dd) id = addEvents db id := by
  unfold addEvents
  rw [dbAfterRemove_events, List.countP_cons]
  simp [remEv]

theorem removeEvents_dbAfterRemove (db : DB) (id : Nat) (o w : Option String)
    (dd : String) :
    removeEvents (dbAfterRemove db id o w dd) id = removeEvents db id + 1 := by
  unfold removeEvents
  rw [dbAfterRemove_events, List.countP_cons]
  simp [remEv]

theorem removeConfirm_outOfStock (db : DB) (bc : String) (item : Item)
    (o w d : Option String) (now : String)
    (hbc : bc ≠ "") (hit : findItem db bc = some item)
    (hq : onHandOf db item.id ≤ 0) :
    removeConfirm (some bc) o w d now db = (.outOfStock, db) := by
  have hm := barcodeMissing_some_ne bc hbc
  unfold removeConfirm
  rw [hm]
  simp only [Bool.false_eq_true, if_false, Option.getD_some, hit]
  cases hl : lookupOnHand db item.id with
  | none => rfl
  | some q =>
    have hql : q ≤ 0 := by rw [onHandOf, hl] at hq; simpa using hq
    simp [hql]

theorem removeConfirmV2_outOfStock (db : DB) (bc : String) (item : Item)
    (o w d : Option String) (now : String)
    (hbc : bc ≠ "") (hit : findItem db bc = some item)
    (hq : onHandOf db item.id ≤ 0) :
    (removeConfirmV2 (some bc) o w d now db).1 = .outOfStock ∧
    (∀ j, onHandOf (removeConfirmV2 (some bc) o w d now db).2 j = onHandOf db j) ∧
    (removeConfirmV2 (some bc) o w d now db).2.events = db.events := by
  have hm := barcodeMissing_some_ne bc hbc
  unfold removeConfirmV2
  rw [hm]
  simp only [Bool.false_eq_true, if_false, Option.getD_some, hit]
  cases hl : lookupOnHand db item.id with
  | none =>
    exact ⟨rfl, fun j => onHandOf_ensure db item.id j, ensure_events db item.id⟩
  | some q =>
    have hql : q ≤ 0 := by rw [onHandOf, hl] at hq; simpa using hq
    simp [hql]

theorem runOk_counts (ops : List UserOp) (bc : String) (item : Item) :
    ∀ db db', bc ≠ "" → findItem db bc = some item →
      runOk ops bc db = some db' →
      onHandOf db' item.id =
        onHandOf db item.id + countAdds ops - countConfirms ops ∧
      addEvents db' item.id = addEvents db item.id + countAdds ops ∧
      removeEvents db' item.id = removeEvents db item.id + countConfirms ops := by
  induction ops with
  | nil =>
    intro db db' hbc hit hrun
    simp only [runOk, Option.some.injEq] at hrun
    subst hrun
    simp [countAdds, countConfirms]
  | cons op rest ih =>
    intro db db' hbc hit hrun
    cases op with
    | addU =>
      rw [runOk, inventoryAdd_found db bc item hbc hit] at hrun
      have hit1 : findItem (dbAfterAdd db item.id) bc = some item := by
        rw [findItem_congr _ db bc (dbAfterAdd_items db item.id)]; exact hit
      obtain ⟨H1, H2, H3⟩ := ih (dbAfterAdd db item.id) db' hbc hit1 hrun
      rw [dbAfterAdd_onHand] at H1
      rw [addEvents_dbAfterAdd] at H2
      rw [removeEvents_dbAfterAdd] at H3
      refine ⟨?_, ?_, ?_⟩
      · rw [H1]; simp only [countAdds, countConfirms, List.countP_cons]
        simp; ring
      · rw [H2]; simp only [countAdds, List.countP_cons]; simp; omega
      · rw [H3]; simp only [countConfirms, List.countP_cons]; simp
    | confirmU =>
      cases hq : lookupOnHand db item.id with
      | none =>
        have hz : onHandOf db item.id ≤ 0 := by rw [onHandOf, hq]; simp
        rw [runOk, removeConfirm_outOfStock db bc item none none none "" hbc hit hz]
          at hrun
        simp at hrun
      | some q =>
        by_cases h0 : q ≤ 0
        · have hz : onHandOf db item.id ≤ 0 := by rw [onHandOf, hq]; simpa using h0
          rw [runOk, removeConfirm_outOfStock db bc item none none none "" hbc hit hz]
            at hrun
          simp at hrun
        · have heq := removeConfirm_removed db bc item none none none "" q hbc hit hq
            (by omega)
          rw [runOk, heq] at hrun
          have hit1 : findItem (dbAfterRemove db item.id none none "") bc
              = some item := by
            rw [findItem_congr _ db bc (dbAfterRemove_items db item.id none none "")]
            exact hit
          obtain ⟨H1, H2, H3⟩ :=
            ih (dbAfterRemove db item.id none none "") db' hbc hit1 hrun
          rw [dbAfterRemove_onHand db item.id none none "" q hq] at H1
          rw [addEvents_dbAfterRemove] at H2
          rw [removeEvents_dbAfterRemove] at H3
          have hov : onHandOf db item.id = q := by rw [onHandOf, hq]; rfl
          refine ⟨?_, ?_, ?_⟩
          · rw [H1, hov]; simp only [countAdds, countConfirms, List.countP_cons]
            simp; ring
          · rw [H2]; simp only [countAdds, List.countP_cons]; simp
          · rw [H3]; simp only [countConfirms, List.countP_cons]; simp; omega

/-! ## LIKE pattern lemmas: escaping makes ILIKE a substring test -/

theorem startsWithL_nil (n : List Char) : startsWithL n [] = n.isEmpty := by
  cases n <;> rfl

theorem tails_any_isEmpty (s : List Char) :
    (s.tails.any fun x => x.isEmpty) = true := by
  induction s with
  | nil => rfl
  | cons a as ih => rw [List.tails_cons, List.any_cons, ih]; simp

theorem likeMatch_lits_anySeq (n : List Char) :
    ∀ s, likeMatch (n.map LTok.lit ++ [LTok.anySeq]) s =
      startsWithL (n.map Char.toLower) (s.map Char.toLower) := by
  induction n with
  | nil =>
    intro s
    show likeMatch [LTok.anySeq] s = _
    simp only [likeMatch]
    rw [tails_any_isEmpty]
    rfl
  | cons c n' ih =>
    intro s
    cases s with
    | nil => simp [likeMatch, startsWithL]
    | cons d ds =>
      show likeMatch (LTok.lit c :: (n'.map LTok.lit ++ [LTok.anySeq])) (d :: ds) = _
      simp only [likeMatch, List.map_cons, startsWithL, ih ds]

theorem likeMatch_anySeq_sub (n : List Char) :
    ∀ t, likeMatch (LTok.anySeq :: (n.map LTok.lit ++ [LTok.anySeq])) t =
      hasSub (n.map Char.toLower) (t.map Char.toLower) := by
  intro t
  induction t with
  | nil =>
    simp only [likeMatch]
    rw [show (([] : List Char).tails) = [[]] from rfl, List.any_cons,
      likeMatch_lits_anySeq n []]
    simp [hasSub, startsWithL_nil]
  | cons d ds ih =>
    simp only [likeMatch] at ih ⊢
    rw [List.tails_cons, List.any_cons, likeMatch_lits_anySeq n (d :: ds), ih]
    simp [hasSub]

theorem lexLike_esc (c : Char) (rest : List Char) :
    lexLike ('\\' :: c :: rest) = LTok.lit c :: lexLike rest := by
  simp [lexLike]

theorem lexLike_pct (rest : List Char) :
    lexLike ('%' :: rest) = LTok.anySeq :: lexLike rest := by
  simp [lexLike]

theorem lexLike_lit (c : Char) (rest : List Char) (hc : c ≠ '\\')
    (h1 : c ≠ '%') (h2 : c ≠ '_') :
    lexLike (c :: rest) = LTok.lit c :: lexLike rest := by
  rw [lexLike] <;> simp [hc, h1, h2]

theorem lexLike_escape (q : List Char) (h : ¬ '\\' ∈ q) :
    lexLike (escapeLike q ++ ['%']) = q.map LTok.lit ++ [LTok.anySeq] := by
  induction q with
  | nil => rfl
  | cons c q' ih =>
    have hc : c ≠ '\\' := fun e => h (by rw [e]; exact List.mem_cons_self _ _)
    have hq' : ¬ '\\' ∈ q' := fun m => h (List.mem_cons_of_mem _ m)
    have hrest := ih hq'
    show lexLike ((escapeLikeChar c ++ escapeLike q') ++ ['%']) = _
    by_cases h1 : c = '%'
    · subst h1
      show lexLike ('\\' :: '%' :: (escapeLike q' ++ ['%'])) = _
      rw [lexLike_esc, hrest]
      rfl
    · by_cases h2 : c = '_'
      · subst h2
        show lexLike ('\\' :: '_' :: (escapeLike q' ++ ['%'])) = _
        rw [lexLike_esc, hrest]
        rfl
      · have hchar : escapeLikeChar c = [c] := by simp [escapeLikeChar, h1, h2]
        rw [hchar]
        show lexLike (c :: (escapeLike q' ++ ['%'])) = _
        rw [lexLike_lit c _ hc h1 h2, hrest]
        rfl

theorem ilike_qPattern (q t : List Char) (h : ¬ '\\' ∈ q) :
    ilike (qPatternOf q) t = hasSub (q.map Char.toLower) (t.map Char.toLower) := by
  unfold ilike qPatternOf
  rw [lexLike_pct, lexLike_escape q h]
  exact likeMatch_anySeq_sub q t

/-! ## Search lemmas: unknown query parameters are never consulted -/

theorem lookup_cons_ne {β : Type} (k a : String) (v : β) (l : List (String × β))
    (h : a ≠ k) : ((k, v) :: l).lookup a = l.lookup a := by
  simp [List.lookup, beq_false_of_ne h]

theorem lookup_none_of_not_mem {β : Type} (l : List (String × β)) (a : String)
    (h : ¬ a ∈ l.map Prod.fst) : l.lookup a = none := by
  induction l with
  | nil => rfl
  | cons p l ih =>
    obtain ⟨k, b⟩ := p
    have hk : a ≠ k := fun e => h (by rw [e]; simp)
    rw [lookup_cons_ne k a b l hk]
    exact ih fun m => h (by simp [m])

theorem parseList_cons_ne (query : List (String × String)) (k v a : String)
    (h : a ≠ k) : parseList ((k, v) :: query) a = parseList query a := by
  unfold parseList
  rw [lookup_cons_ne k a v query h]

theorem qPatternOpt_cons_ne (query : List (String × String)) (k v : String)
    (h : ("q" : String) ≠ k) :
    qPatternOpt ((k, v) :: query) = qPatternOpt query := by
  unfold qPatternOpt
  rw [lookup_cons_ne k "q" v query h]

theorem filtersOf_cons_not_allowed (query : List (String × String)) (k v : String)
    (h : ¬ k ∈ FIELD_MAP.map Prod.fst) :
    filtersOf ((k, v) :: query) = filtersOf query := by
  have hne : ∀ a : String, a ∈ FIELD_MAP.map Prod.fst → a ≠ k :=
    fun a ha e => h (e ▸ ha)
  have h1 := hne "brand" (by simp [FIELD_MAP])
  have h2 := hne "model" (by simp [FIELD_MAP])
  have h3 := hne "size" (by simp [FIELD_MAP])
  have h4 := hne "color" (by simp [FIELD_MAP])
  have h5 := hne "purchasedfrom" (by simp [FIELD_MAP])
  have h6 := hne "scannedcode" (by simp [FIELD_MAP])
  have h7 := hne "notes" (by simp [FIELD_MAP])
  have h8 := hne "soldorder" (by simp [FIELD_MAP])
  simp only [filtersOf, FIELD_MAP, List.map_cons, List.map_nil]
  rw [parseList_cons_ne query k v "brand" h1,
    parseList_cons_ne query k v "model" h2,
    parseList_cons_ne query k v "size" h3,
    parseList_cons_ne query k v "color" h4,
    parseList_cons_ne query k v "purchasedfrom" h5,
    parseList_cons_ne query k v "scannedcode" h6,
    parseList_cons_ne query k v "notes" h7,
    parseList_cons_ne query k v "soldorder" h8]

theorem searchRoute_cons_not_allowed (db : DB) (k v : String)
    (query : List (String × String))
    (hk : ¬ (k = "q" ∨ k ∈ FIELD_MAP.map Prod.fst)) :
    searchRoute ((k, v) :: query) db = searchRoute query db := by
  have hq : ("q" : String) ≠ k := fun e => hk (Or.inl e.symm)
  have hf : ¬ k ∈ FIELD_MAP.map Prod.fst := fun m => hk (Or.inr m)
  unfold searchRoute
  rw [qPatternOpt_cons_ne query k v hq, filtersOf_cons_not_allowed query k v hf]

theorem itemsDistinct_invalid (f : String) (db : DB)
    (h : ¬ lowerStr f ∈ FIELD_MAP.map Prod.fst) :
    itemsDistinct f db = .error .invalidField := by
  unfold itemsDistinct
  rw [lookup_none_of_not_mem _ _ h]

/-! ## InitiateRemove preserves every quantity -/

theorem onHandOf_initiate (b : Option String) (db : DB) (j : Nat) :
    onHandOf (removeInitiate b db).2 j = onHandOf db j := by
  unfold removeInitiate
  cases hm : barcodeMissing b with
  | true => simp
  | false =>
    simp only [Bool.false_eq_true, if_false]
    cases hf : findItem db (b.getD "") with
    | none => simp
    | some item =>
      simp only []
      exact onHandOf_ensure db item.id j

theorem onHandOf_initiate_iter (b : Option String) (n : Nat) (db : DB) (j : Nat) :
    onHandOf (applyOps (List.replicate n (Op.initiate b)) db) j = onHandOf db j := by
  induction n generalizing db with
  | zero => rfl
  | succ n ih =>
    rw [List.replicate_succ]
    show onHandOf (applyOps _ (applyOp (Op.initiate b) db)) j = _
    rw [ih (applyOp (Op.initiate b) db)]
    exact onHandOf_initiate b db j

/-! ## Concrete fixtures for witnesses and counterexamples -/

def witItem : Item :=
  { id := 1, inventoryDate := "2024-01-01T00:00:00Z", scannedCode := "X1",
    brand := none, model := "Widget", size := none, color := none, notes := none,
    soldOrder := none, purchasedFrom := none, paintThickness := none,
    price := none, qty := none }

def witDB : DB := { items := [witItem], onhand := [], events := [], nextId := 2 }

def witDB1 : DB := { witDB with onhand := [(1, 1)] }

/-- The database after one AddOne then one ConfirmRemove on witDB. -/
def c3Final : DB :=
  { items := [witItem], onhand := [(1, 0)],
    events := [remEv 1 none none "", addEv 1], nextId := 2 }

def c5OldItem : Item :=
  { id := 1, inventoryDate := "2020-01-01T00:00:00Z", scannedCode := "X1",
    brand := some "OldBrand", model := "OldModel", size := none, color := none,
    notes := none, soldOrder := none, purchasedFrom := none,
    paintThickness := none, price := none, qty := none }

def c5Db : DB := { items := [c5OldItem], onhand := [(1, 0)], events := [], nextId := 2 }

/-- A catalog write for the same scan code with InventoryDate absent. -/
def c5Body : ItemBody :=
  { inventoryDate := none, scannedCode := some "X1", brand := some "NewBrand",
    model := some "NewModel", size := none, color := none, notes := none,
    soldOrder := none, purchasedFrom := none, paintThickness := none,
    price := none, qty := none }

/-- What the upsert stores: every mutable field overwritten, and the date
replaced by the request time although the body carried no date. -/
def c5NewItem : Item :=
  { c5OldItem with
    inventoryDate := "2025-10-11T00:00:00Z",
    brand := some "NewBrand",
    model := "NewModel" }

/-! ## Claims -/

/-- Claim C1: for an item whose on-hand quantity is 0 (or less) at the
locked read, ConfirmRemove fails with OutOfStock and mutates nothing: the
first version returns the database unchanged, and the second version keeps
every quantity and the whole event log unchanged (it may only materialize a
missing ledger row at 0). -/
theorem confirmRemove_outOfStock_no_mutation (db : DB) (bc : String)
    (item : Item) (o w d : Option String) (now : String)
    (hbc : bc ≠ "") (hit : findItem db bc = some item)
    (hq : onHandOf db item.id ≤ 0) :
    removeConfirm (some bc) o w d now db = (.outOfStock, db) ∧
    (removeConfirmV2 (some bc) o w d now db).1 = .outOfStock ∧
    (∀ j, onHandOf (removeConfirmV2 (some bc) o w d now db).2 j = onHandOf db j) ∧
    (removeConfirmV2 (some bc) o w d now db).2.events = db.events :=
  ⟨removeConfirm_outOfStock db bc item o w d now hbc hit hq,
   (removeConfirmV2_outOfStock db bc item o w d now hbc hit hq).1,
   (removeConfirmV2_outOfStock db bc item o w d now hbc hit hq).2.1,
   (removeConfirmV2_outOfStock db bc item o w d now hbc hit hq).2.2⟩

theorem confirmRemove_outOfStock_no_mutation_witness :
    ("X1" ≠ "" ∧ findItem witDB "X1" = some witItem ∧
      onHandOf witDB witItem.id ≤ 0) ∧
    removeConfirm (some "X1") none none none "t" witDB = (.outOfStock, witDB) :=
  ⟨⟨by decide, by decide, by decide⟩,
   (confirmRemove_outOfStock_no_mutation witDB "X1" witItem none none none "t"
     (by decide) (by decide) (by decide)).1⟩

/-- Claim C2: starting from the empty database, any sequence of AddOne,
InitiateRemove, ConfirmRemove (either version) and catalog-write operations
leaves every on-hand quantity non-negative: new ledger rows start at 0,
AddOne only increments, and ConfirmRemove decrements only a positive
quantity. -/
theorem onHand_nonneg_reachable (ops : List Op) (i : Nat) :
    0 ≤ onHandOf (applyOps ops emptyDB) i :=
  nonNeg_applyOps ops emptyDB (fun _ => le_refl 0) i

/-- Claim C3: a sequential run of AddOne and successful ConfirmRemove calls
on an item starting at quantity 0 with no logged events ends with quantity
N - M and exactly N add events and M remove events for the item, where N
and M count the AddOne and ConfirmRemove calls in the run. -/
theorem add_remove_counts (ops : List UserOp) (db db' : DB) (bc : String)
    (item : Item) (hbc : bc ≠ "") (hit : findItem db bc = some item)
    (h0 : onHandOf db item.id = 0) (ha : addEvents db item.id = 0)
    (hr : removeEvents db item.id = 0)
    (hrun : runOk ops bc db = some db') :
    onHandOf db' item.id = (countAdds ops : Int) - (countConfirms ops : Int) ∧
    addEvents db' item.id = countAdds ops ∧
    removeEvents db' item.id = countConfirms ops := by
  obtain ⟨H1, H2, H3⟩ := runOk_counts ops bc item db db' hbc hit hrun
  rw [h0] at H1
  rw [ha] at H2
  rw [hr] at H3
  exact ⟨by omega, by omega, by omega⟩

theorem add_remove_counts_witness :
    runOk [UserOp.addU, UserOp.confirmU] "X1" witDB = some c3Final ∧
    onHandOf c3Final witItem.id =
      (countAdds [UserOp.addU, UserOp.confirmU] : Int) -
        (countConfirms [UserOp.addU, UserOp.confirmU] : Int) ∧
    addEvents c3Final witItem.id = countAdds [UserOp.addU, UserOp.confirmU] ∧
    removeEvents c3Final witItem.id = countConfirms [UserOp.addU, UserOp.confirmU] :=
  ⟨by decide,
   add_remove_counts [UserOp.addU, UserOp.confirmU] witDB c3Final "X1" witItem
     (by decide) (by decide) (by decide) (by decide) (by decide) (by decide)⟩

/-- Claim C4: InitiateRemove never changes any on-hand quantity, no matter
how many times it runs (it only creates the missing ledger row at 0, so the
row exists afterwards at the prior effective value), appends no event, and
returns ConfirmationRequired with the item and its quantity exactly when
the quantity is positive, RegisteredZeroStock when the quantity is 0. -/
theorem initiateRemove_pure_and_status (db : DB) (bc : String) (item : Item)
    (hbc : bc ≠ "") (hit : findItem db bc = some item) :
    (∀ n j, onHandOf (applyOps (List.replicate n (Op.initiate (some bc))) db) j
      = onHandOf db j) ∧
    (removeInitiate (some bc) db).2.events = db.events ∧
    lookupOnHand (removeInitiate (some bc) db).2 item.id
      = some (onHandOf db item.id) ∧
    (0 < onHandOf db item.id →
      (removeInitiate (some bc) db).1
        = .confirmRequired item (onHandOf db item.id)) ∧
    (onHandOf db item.id = 0 →
      (removeInitiate (some bc) db).1 = .registeredZeroStock item 0) := by
  have he := removeInitiate_found db bc item hbc hit
  refine ⟨fun n j => onHandOf_initiate_iter (some bc) n db j, ?_, ?_, ?_, ?_⟩
  · rw [he]; exact ensure_events db item.id
  · rw [he]; exact lookupOnHand_ensure_self db item.id
  · intro h; rw [he]; simp [h]
  · intro h; rw [he]; simp [h]

theorem initiateRemove_pure_and_status_witness :
    ("X1" ≠ "" ∧ findItem witDB "X1" = some witItem ∧
      onHandOf witDB witItem.id = 0) ∧
    (removeInitiate (some "X1") witDB).1 = .registeredZeroStock witItem 0 :=
  ⟨⟨by decide, by decide, by decide⟩,
   (initiateRemove_pure_and_status witDB "X1" witItem (by decide)
     (by decide)).2.2.2.2 (by decide)⟩

/-- Claim C5 (code bug): a catalog write for an existing scan code whose
body has no InventoryDate does not preserve the stored date.  The JS layer
substitutes the request time for the absent value before binding the SQL
parameter, so the COALESCE in the ON CONFLICT update sees a non-null
EXCLUDED date and overwrites the stored one.  At a concrete upsert: the
stored date becomes the request time while the other mutable fields are
overwritten as specified. -/
theorem postItems_overwrites_inventoryDate :
    (postItems c5Body "2025-10-11T00:00:00Z" c5Db).2.items = [c5NewItem] ∧
    c5OldItem.inventoryDate ≠ c5NewItem.inventoryDate := by
  exact ⟨by decide, by decide⟩

/-- Claim C6 corrected, counterexample: a search request carrying the
unknown filter field foo is not rejected with InvalidField; the route
answers with an ordinary result list (the empty browse view here). -/
theorem search_unknown_field_not_rejected :
    searchRoute [("foo", "bar")] emptyDB = .ok [] ∧
    searchRoute [("foo", "bar")] emptyDB ≠ .error .invalidField := by
  refine ⟨by rfl, ?_⟩
  rw [show searchRoute [("foo", "bar")] emptyDB = .ok [] from rfl]
  intro h
  exact Except.noConfusion h

/-- Claim C6 amended: the search route reads only the q parameter and the
eight allow-listed field parameters, so a request with an extra unknown
field parameter returns exactly what the request without it returns (the
unknown field is ignored, never rejected), while DistinctValues on a field
outside the allow-list fails with InvalidField. -/
theorem search_ignores_unknown_distinct_rejects (db : DB) (k v f : String)
    (query : List (String × String))
    (hk : ¬ (k = "q" ∨ k ∈ FIELD_MAP.map Prod.fst))
    (hf : ¬ lowerStr f ∈ FIELD_MAP.map Prod.fst) :
    searchRoute ((k, v) :: query) db = searchRoute query db ∧
    itemsDistinct f db = .error .invalidField :=
  ⟨searchRoute_cons_not_allowed db k v query hk, itemsDistinct_invalid f db hf⟩

theorem search_ignores_unknown_distinct_rejects_witness :
    (¬ ("foo" = "q" ∨ "foo" ∈ FIELD_MAP.map Prod.fst) ∧
      ¬ lowerStr "foo" ∈ FIELD_MAP.map Prod.fst) ∧
    searchRoute [("foo", "bar")] witDB = searchRoute [] witDB ∧
    itemsDistinct "foo" witDB = .error .invalidField :=
  ⟨⟨by decide, by decide⟩,
   search_ignores_unknown_distinct_rejects witDB "foo" "bar" "foo" []
     (by decide) (by decide)⟩

/-- Claim C7 corrected, counterexample: the route escapes only percent and
underscore, not the escape character itself.  For the free text consisting
of a backslash then a percent sign, the built pattern turns the user's
backslash into an escape of the inserted backslash, leaving the user's
percent sign a live wildcard: the text backslash-a matches although it
does not contain the requested substring. -/
theorem qPattern_backslash_wildcard :
    ilike (qPatternOf ['\\', '%']) ['\\', 'a'] = true ∧
    hasSub (['\\', '%'].map Char.toLower) (['\\', 'a'].map Char.toLower) = false := by
  exact ⟨by decide, by decide⟩

/-- Claim C7 amended: for every free-text input that contains no backslash,
the built ILIKE pattern matches a text exactly when the lowered input is a
contiguous substring of the lowered text: every percent and underscore of
the input is matched literally and the comparison is case-insensitive. -/
theorem ilike_qPattern_substring (q t : List Char) (h : ¬ '\\' ∈ q) :
    ilike (qPatternOf q) t = hasSub (q.map Char.toLower) (t.map Char.toLower) :=
  ilike_qPattern q t h

theorem ilike_qPattern_substring_witness :
    (¬ '\\' ∈ ['a', '%']) ∧
    ilike (qPatternOf ['a', '%']) ['x', 'A', '%', 'y'] =
      hasSub (['a', '%'].map Char.toLower) (['x', 'A', '%', 'y'].map Char.toLower) :=
  ⟨by decide, ilike_qPattern_substring ['a', '%'] ['x', 'A', '%', 'y'] (by decide)⟩

/-- Claim C8 (code bug in src/web/src/ui/App.tsx): answering No sends no
request in either UI version, and the part_001 version forwards the
operator metadata as the claim states; but the App.tsx onConfirm handler
takes no parameter, so the body it posts holds only the barcode and the
metadata entered in the dialog (here an order id and a source) is dropped. -/
theorem appConfirm_drops_metadata :
    confirmOutcome witItem id (.yes "SO-1" "Store" "") =
      some { barcode := "X1", orderId := none, whereBoughtFrom := none,
             dateSubtracted := none } ∧
    confirmOutcomeV2 witItem id (.yes "SO-1" "Store" "") =
      some { barcode := "X1", orderId := some "SO-1",
             whereBoughtFrom := some "Store", dateSubtracted := none } ∧
    confirmOutcome witItem id .no = none ∧
    confirmOutcomeV2 witItem id .no = none := by
  exact ⟨by decide, by decide, rfl, rfl⟩

/-- Claim C9: ConfirmRemove needs no prior InitiateRemove.  The database
state holds no record of initiations, and for any state in which the item's
quantity is positive a ConfirmRemove call succeeds on its own, returning
Removed with the decremented quantity and decrementing the ledger by one. -/
theorem confirmRemove_stateless_success (db : DB) (bc : String) (item : Item)
    (o w d : Option String) (now : String)
    (hbc : bc ≠ "") (hit : findItem db bc = some item)
    (hq : 0 < onHandOf db item.id) :
    removeConfirm (some bc) o w d now db =
      (.removed (onHandOf db item.id - 1) (remEv item.id o w (d.getD now)),
       dbAfterRemove db item.id o w (d.getD now)) ∧
    onHandOf (dbAfterRemove db item.id o w (d.getD now)) item.id
      = onHandOf db item.id - 1 := by
  cases hl : lookupOnHand db item.id with
  | none => rw [onHandOf, hl] at hq; simp at hq
  | some q =>
    have hov : onHandOf db item.id = q := by rw [onHandOf, hl]; rfl
    have h0 : 0 < q := hov ▸ hq
    constructor
    · rw [hov]; exact removeConfirm_removed db bc item o w d now q hbc hit hl h0
    · rw [hov]; exact dbAfterRemove_onHand db item.id o w (d.getD now) q hl

theorem confirmRemove_stateless_success_witness :
    ("X1" ≠ "" ∧ findItem witDB1 "X1" = some witItem ∧
      0 < onHandOf witDB1 witItem.id) ∧
    removeConfirm (some "X1") none none none "t" witDB1 =
      (.removed (onHandOf witDB1 witItem.id - 1) (remEv witItem.id none none "t"),
       dbAfterRemove witDB1 witItem.id none none "t") :=
  ⟨⟨by decide, by decide, by decide⟩,
   (confirmRemove_stateless_success witDB1 "X1" witItem none none none "t"
     (by decide) (by decide) (by decide)).1⟩

/-- Claim C10: each of the three inventory endpoints rejects a request whose
barcode is absent or empty with the missing-barcode validation error and
returns the database unchanged (the guard runs before any database access). -/
theorem missing_barcode_rejected (b : Option String) (db : DB)
    (o w d : Option String) (now : String) (hb : b = none ∨ b = some "") :
    inventoryAdd b db = (.missingBarcode, db) ∧
    removeInitiate b db = (.missingBarcode, db) ∧
    removeConfirm b o w d now db = (.missingBarcode, db) := by
  have hm : barcodeMissing b = true := by
    cases hb with
    | inl h => rw [h]; rfl
    | inr h => rw [h]; rfl
  refine ⟨?_, ?_, ?_⟩
  · unfold inventoryAdd; rw [hm]; simp
  · unfold removeInitiate; rw [hm]; simp
  · unfold removeConfirm; rw [hm]; simp

theorem missing_barcode_rejected_witness :
    (some "" = none ∨ some "" = some "") ∧
    inventoryAdd (some "") witDB = (.missingBarcode, witDB) ∧
    removeInitiate (some "") witDB = (.missingBarcode, witDB) ∧
    removeConfirm (some "") none none none "t" witDB = (.missingBarcode, witDB) :=
  ⟨Or.inr rfl,
   (missing_barcode_rejected (some "") witDB none none none "t" (Or.inr rfl)).1,
   (missing_barcode_rejected (some "") witDB none none none "t" (Or.inr rfl)).2.1,
   (missing_barcode_rejected (some "") witDB none none none "t" (Or.inr rfl)).2.2⟩

end Inventory
